import Mathlib

/-!
# darray.h: a byte-level embedding

`darray.h` keeps a growable array in one heap block: a header of
`_DARRAY_TAG_ENUM_END` (= 4) words of type `size_t`, followed by the payload.
The handle the caller holds is the address of the payload, `head + 4` words.

The embedding keeps the block as the list of its bytes, first byte first.
The handle is therefore always the byte offset `PAYLOAD = 32` inside the block.
Target assumptions, stated once:

* `size_t` is 64 bits wide and stored little-endian (x86-64, AArch64);
  `size_t` arithmetic is arithmetic modulo `2^64`;
* `float` is IEEE-754 binary32 and products are rounded to binary32
  (`FLT_EVAL_METHOD == 0`);
* an access that is not inside the block is undefined behaviour, reported as
  `Fault.ub`; a failed `DRUNTIME_ASSERT` is reported as `Fault.abort`;
* adding a `size_t` to a `char *` wraps like the flat 64-bit address space
  does, so a product such as `(0 - 1) * stride` addresses the bytes *before*
  the payload;
* a handle and a `value` pointer of the embedding are never `NULL`, so the
  assertions `array != NULL` and `value != NULL` are asserted on `true`;
* `realloc` keeps the common prefix of the old and the new block, and the
  environment says whether it returns the block at a new address. The source
  reads `count` through the old handle after `realloc` (line 102): when the
  block was moved the old one is freed and that read is undefined behaviour;
  when it was not moved the old handle addresses the new block;
* `realloc(ptr, 0)` frees the block and returns `NULL`, as glibc does.
-/

namespace Darray

/-! ## Machine model -/

/-- One byte of memory. -/
abbrev Byte := Fin 256

/-- The bytes of one heap allocation, starting at its first byte. -/
abbrev Block := List Byte

/-- The messages of the assertions in `darray.h`. -/
inductive Assertion
  | stride_zero          -- "cannot create array with stride of 0"
  | no_memory_alloc      -- "no memory to allocate array block."
  | no_memory_realloc    -- "no memory to reallocate array block"
  | array_null           -- "array argument is null"
  | value_null           -- "value argument is null"
  | index_out_of_bounds  -- "array index out of bounds"
  deriving DecidableEq, Repr

/-- The two ways a call can fail to return. -/
inductive Fault
  | abort (a : Assertion)  -- `DRUNTIME_ASSERT` printed its message and called `abort()`
  | ub                     -- undefined behaviour
  deriving DecidableEq, Repr

/-- The result of a call: a fault or a value. -/
inductive Outcome (α : Type)
  | fault (f : Fault) : Outcome α
  | ok (a : α) : Outcome α
  deriving DecidableEq, Repr

/-- Sequencing of calls: the first fault ends the run. -/
def Outcome.bind {α β : Type} (x : Outcome α) (f : α → Outcome β) : Outcome β :=
  match x with
  | Outcome.fault e => Outcome.fault e
  | Outcome.ok a => f a

instance : Monad Outcome where
  pure := Outcome.ok
  bind := Outcome.bind

/-- The build configuration and the allocator the program runs against. -/
structure Env where
  /-- Whether `NDEBUG` is defined. -/
  ndebug : Bool
  /-- Whether the allocator can serve a request of this many bytes. -/
  alloc_ok : Nat → Bool
  /-- The indeterminate content of a fresh byte at this offset of a block. -/
  junk : Nat → Byte
  /-- Whether `realloc` of a block of the first size to the second size returns
  the block at a new address, freeing the old block. -/
  moves : Nat → Nat → Bool

/-- The number of values of `size_t`. -/
def SIZE_MOD : Nat := 2 ^ 64

/-- The value of `sizeof(size_t)`. -/
def WORD : Nat := 8

/-- The little-endian bytes of the low `n` bytes of `w`. -/
def le_bytes : Nat → Nat → List Byte
  | 0, _ => []
  | n + 1, w => Fin.ofNat w :: le_bytes n (w / 256)

/-- The number a little-endian byte string denotes. -/
def le_value : List Byte → Nat
  | [] => 0
  | b :: bs => b.val + 256 * le_value bs

/-- The address, relative to the first byte of the block, that a `char *` at
relative address `p` reaches when the `size_t` value `x` is added to it. -/
def ptr_add (p : Int) (x : Nat) : Int :=
  if x % SIZE_MOD < 2 ^ 63 then p + (x % SIZE_MOD : Nat) else p + (x % SIZE_MOD : Nat) - (2 ^ 64 : Nat)

/-- The `len` bytes of `m` from offset `a` on. -/
def window (m : Block) (a len : Nat) : List Byte := (m.drop a).take len

/-- The block `m` with the bytes from offset `a` on replaced by `bs`. -/
def splice (m : Block) (a : Nat) (bs : List Byte) : Block :=
  m.take a ++ bs ++ m.drop (a + bs.length)

/-- Read `len` bytes at relative address `addr`. -/
def load_bytes (m : Block) (addr : Int) (len : Nat) : Outcome (List Byte) :=
  if 0 ≤ addr ∧ addr + len ≤ m.length then Outcome.ok (window m addr.toNat len)
  else Outcome.fault Fault.ub

/-- Write the bytes `bs` at relative address `addr`. -/
def store_bytes (m : Block) (addr : Int) (bs : List Byte) : Outcome Block :=
  if 0 ≤ addr ∧ addr + bs.length ≤ m.length then Outcome.ok (splice m addr.toNat bs)
  else Outcome.fault Fault.ub

/-- The effect of `memcpy(dst, value, n)` where `value` is the object the
source pointer points to and `dst` points into the block. -/
def memcpy (m : Block) (dst : Int) (value : List Byte) (n : Nat) : Outcome Block :=
  if n ≤ value.length then store_bytes m dst (value.take n) else Outcome.fault Fault.ub

/-- The effect of `memmove(dst, src, n)` inside one block. -/
def memmove (m : Block) (dst src : Int) (n : Nat) : Outcome Block := do
  let bs ← load_bytes m src n
  store_bytes m dst bs

/-- The block `malloc(size)` returns, `none` for `NULL`. -/
def malloc (env : Env) (size : Nat) : Option Block :=
  if env.alloc_ok size then some ((List.range size).map env.junk) else none

/-- The block `realloc(old, size)` returns, `none` for `NULL`. A request of size
0 frees the block and returns `NULL`. -/
def realloc (env : Env) (old : Block) (size : Nat) : Option Block :=
  if size = 0 then none
  else if env.alloc_ok size then
    some (old.take size ++ (List.range' old.length (size - old.length)).map env.junk)
  else none

/-- Whether `realloc(old, size)` returned the block at a new address, so that
the old block is freed and the old handle dangles. -/
def realloc_moves (env : Env) (old : Block) (size : Nat) : Bool :=
  env.moves old.length size

/-- Round to 24 significant bits, ties to even: the value of `(float)n`. -/
def round_f32 (n : Nat) : Nat :=
  if n < 2 ^ 24 then n
  else
    let e := Nat.log2 n - 23
    let q := n / 2 ^ e
    let r := n % 2 ^ e
    let half := 2 ^ (e - 1)
    let q1 := if half < r ∨ (r = half ∧ q % 2 = 1) then q + 1 else q
    q1 * 2 ^ e

/-! ## The source, function by function -/

/-- The macro `DGROWTH_FACTOR` (`1.5f`) applied as in `(size_t)(n * DGROWTH_FACTOR)`:
`n` is converted to `float`, the product with `1.5f` is rounded to `float`, and
the conversion back truncates; it is undefined when the value does not fit. -/
def times_DGROWTH_FACTOR (n : Nat) : Outcome Nat :=
  let y := round_f32 (3 * round_f32 n) / 2
  if y < SIZE_MOD then Outcome.ok y else Outcome.fault Fault.ub

/-- The macro `DRUNTIME_ASSERT(expr, msg)`: print the message and `abort()` unless `expr`. -/
def DRUNTIME_ASSERT (expr : Bool) (msg : Assertion) : Outcome Unit :=
  if expr then Outcome.ok () else Outcome.fault (Fault.abort msg)

/-- The macro `DRUNTIME_DEBUG_ASSERT(expr, msg)`: `DRUNTIME_ASSERT` unless `NDEBUG`
is defined. With `NDEBUG` the source defines the macro as an empty statement but
without parameters, so its two-argument uses do not preprocess; the embedding
gives that build the empty statement the definition spells out. -/
def DRUNTIME_DEBUG_ASSERT (env : Env) (expr : Bool) (msg : Assertion) : Outcome Unit :=
  if env.ndebug then Outcome.ok () else DRUNTIME_ASSERT expr msg

/-- The enumerator `_DARRAY_TAG_STRIDE`. -/
def _DARRAY_TAG_STRIDE : Nat := 0

/-- The enumerator `_DARRAY_TAG_COUNT`. -/
def _DARRAY_TAG_COUNT : Nat := 1

/-- The enumerator `_DARRAY_TAG_BYTES`. -/
def _DARRAY_TAG_BYTES : Nat := 2

/-- The enumerator `_DARRAY_TAG_CAPACITY`. -/
def _DARRAY_TAG_CAPACITY : Nat := 3

/-- The enumerator `_DARRAY_TAG_ENUM_END`. -/
def _DARRAY_TAG_ENUM_END : Nat := 4

/-- The macro `_DARRAY_HEADER_STRIDE`: `_DARRAY_TAG_ENUM_END * sizeof(size_t)`. -/
def _DARRAY_HEADER_STRIDE : Nat := _DARRAY_TAG_ENUM_END * WORD

/-- The relative address of the payload, which is the handle: `head + _DARRAY_TAG_ENUM_END`. -/
def PAYLOAD : Int := (_DARRAY_TAG_ENUM_END * WORD : Nat)

/-- The relative address of `array - field` for the `size_t *` handle `array`. -/
def field_addr (field : Nat) : Int := PAYLOAD - (field * WORD : Nat)

/-- The function `darray_fetch_field_impl(array, field)`: `return *(array - field);`. -/
def darray_fetch_field_impl (m : Block) (field : Nat) : Outcome Nat := do
  let bs ← load_bytes m (field_addr field) WORD
  pure (le_value bs)

/-- The function `darray_set_field_impl(array, field, value)`:
`*((size_t *)array - field) = value;`. -/
def darray_set_field_impl (m : Block) (field : Nat) (value : Nat) : Outcome Block :=
  store_bytes m (field_addr field) (le_bytes WORD value)

/-- The macro `darray_stride(array)`. -/
def darray_stride (m : Block) : Outcome Nat := darray_fetch_field_impl m _DARRAY_TAG_STRIDE

/-- The macro `darray_count(array)`. -/
def darray_count (m : Block) : Outcome Nat := darray_fetch_field_impl m _DARRAY_TAG_COUNT

/-- The macro `darray_bytes(array)`. -/
def darray_bytes (m : Block) : Outcome Nat := darray_fetch_field_impl m _DARRAY_TAG_BYTES

/-- The macro `darray_capacity(array)`. -/
def darray_capacity (m : Block) : Outcome Nat := darray_fetch_field_impl m _DARRAY_TAG_CAPACITY

/-- The function `darray_create_impl(stride, count)`. -/
def darray_create_impl (env : Env) (stride count : Nat) : Outcome Block := do
  DRUNTIME_DEBUG_ASSERT env (stride != 0) Assertion.stride_zero
  let count := if count = 0 then 1 else count
  let byte_count := stride * count % SIZE_MOD
  let head := malloc env ((byte_count + _DARRAY_HEADER_STRIDE) % SIZE_MOD)
  DRUNTIME_ASSERT head.isSome Assertion.no_memory_alloc
  let block := head.getD []
  let block ← darray_set_field_impl block _DARRAY_TAG_STRIDE stride
  let block ← darray_set_field_impl block _DARRAY_TAG_COUNT count
  let block ← darray_set_field_impl block _DARRAY_TAG_BYTES byte_count
  let capacity ← times_DGROWTH_FACTOR count
  let block ← darray_set_field_impl block _DARRAY_TAG_CAPACITY capacity
  pure block

/-- The function `darray_fetch_field_impl` called through the handle of `old`
after `realloc(old, size)` returned `new_block`. When the block was moved the
handle points into freed memory and the read is undefined; when it was not
moved the handle addresses `new_block`. -/
def fetch_through_old_handle (env : Env) (old new_block : Block) (size field : Nat) :
    Outcome Nat :=
  if realloc_moves env old size then Outcome.fault Fault.ub
  else darray_fetch_field_impl new_block field

/-- The function `darray_resize_impl(array, new_capacity)`. Line 102 reads
`darray_count(array)` with the handle that was passed in, after `realloc`. -/
def darray_resize_impl (env : Env) (array : Block) (new_capacity : Nat) : Outcome Block := do
  DRUNTIME_DEBUG_ASSERT env true Assertion.array_null
  let stride ← darray_stride array
  let size := (new_capacity * stride % SIZE_MOD + _DARRAY_HEADER_STRIDE) % SIZE_MOD
  let new_head := realloc env array size
  DRUNTIME_ASSERT new_head.isSome Assertion.no_memory_realloc
  let new_block := new_head.getD []
  let count ← fetch_through_old_handle env array new_block size _DARRAY_TAG_COUNT
  -- downsizing
  let new_block ←
    if new_capacity < count then do
      let b ← darray_set_field_impl new_block _DARRAY_TAG_COUNT new_capacity
      darray_set_field_impl b _DARRAY_TAG_BYTES (new_capacity * stride % SIZE_MOD)
    else pure new_block
  darray_set_field_impl new_block _DARRAY_TAG_CAPACITY new_capacity

/-- The macro `darray_resize(array, count)`: `(array) = darray_resize_impl(array, count)`. -/
def darray_resize (env : Env) (array : Block) (count : Nat) : Outcome Block :=
  darray_resize_impl env array count

/-- The macro `darray_shrink(array)`: `darray_resize(array, darray_count(array))`. -/
def darray_shrink (env : Env) (array : Block) : Outcome Block := do
  let count ← darray_count array
  darray_resize env array count

/-- The macro `darray_reserve(array, count)`:
`darray_resize(array, darray_count(array) + (count))`. -/
def darray_reserve (env : Env) (array : Block) (count : Nat) : Outcome Block := do
  let c ← darray_count array
  darray_resize env array ((c + count) % SIZE_MOD)

/-- The function `darray_push_impl(array, value)`. -/
def darray_push_impl (env : Env) (array : Block) (value : List Byte) : Outcome Block := do
  DRUNTIME_DEBUG_ASSERT env true Assertion.array_null
  DRUNTIME_DEBUG_ASSERT env true Assertion.value_null
  let count ← darray_count array
  let capacity ← darray_capacity array
  let array ←
    if count ≥ capacity then do
      let grown ← times_DGROWTH_FACTOR capacity
      darray_resize env array grown
    else pure array
  let stride ← darray_stride array
  let last_index := (count + SIZE_MOD - 1) % SIZE_MOD
  let array ← memcpy array (ptr_add PAYLOAD (last_index * stride)) value stride
  let array ← darray_set_field_impl array _DARRAY_TAG_COUNT ((count + 1) % SIZE_MOD)
  darray_set_field_impl array _DARRAY_TAG_BYTES ((count * stride + stride) % SIZE_MOD)

/-- The macro `darray_push(array, value)`: `(array) = darray_push_impl(array, value)`. -/
def darray_push (env : Env) (array : Block) (value : List Byte) : Outcome Block :=
  darray_push_impl env array value

/-- The function `darray_pop(array)`. -/
def darray_pop (env : Env) (array : Block) : Outcome Block := do
  DRUNTIME_DEBUG_ASSERT env true Assertion.array_null
  let count ← darray_count array
  let array ← darray_set_field_impl array _DARRAY_TAG_COUNT ((count + SIZE_MOD - 1) % SIZE_MOD)
  let bytes ← darray_bytes array
  let stride ← darray_stride array
  darray_set_field_impl array _DARRAY_TAG_BYTES ((bytes + SIZE_MOD - stride) % SIZE_MOD)

/-- The function `darray_shift_up_impl(array, index, amount)`. -/
def darray_shift_up_impl (env : Env) (array : Block) (index amount : Nat) : Outcome Block := do
  DRUNTIME_DEBUG_ASSERT env true Assertion.array_null
  let count ← darray_count array
  let new_count := (count + amount) % SIZE_MOD
  let capacity ← darray_capacity array
  let array ← if new_count ≥ capacity then darray_resize env array new_count else pure array
  let stride ← darray_stride array
  let element := ptr_add PAYLOAD (index * stride)
  let array ← memmove array element (ptr_add element amount) (amount * stride % SIZE_MOD)
  let array ← darray_set_field_impl array _DARRAY_TAG_COUNT new_count
  darray_set_field_impl array _DARRAY_TAG_BYTES (new_count * stride % SIZE_MOD)

/-- The function `darray_shift_down_impl(array, index, amount)`. -/
def darray_shift_down_impl (env : Env) (array : Block) (index amount : Nat) : Outcome Block := do
  DRUNTIME_DEBUG_ASSERT env true Assertion.array_null
  let count ← darray_count array
  let new_count := (count + SIZE_MOD - amount) % SIZE_MOD
  let stride ← darray_stride array
  let element := ptr_add PAYLOAD (index * stride)
  let array ← memmove array (element - (amount : Int)) element (amount * stride % SIZE_MOD)
  let array ← darray_set_field_impl array _DARRAY_TAG_COUNT new_count
  darray_set_field_impl array _DARRAY_TAG_BYTES (new_count * stride % SIZE_MOD)

/-- The function `darray_insert_impl(array, index, value)`. -/
def darray_insert_impl (env : Env) (array : Block) (index : Nat) (value : List Byte) :
    Outcome Block := do
  DRUNTIME_DEBUG_ASSERT env true Assertion.array_null
  DRUNTIME_DEBUG_ASSERT env true Assertion.value_null
  let count ← darray_count array
  DRUNTIME_DEBUG_ASSERT env (decide (index > count)) Assertion.index_out_of_bounds
  -- make room
  let array ← darray_shift_up_impl env array index 1
  let stride ← darray_stride array
  memcpy array (ptr_add PAYLOAD (index * stride)) value stride

/-- The macro `darray_insert(array, index, value)`:
`array = darray_insert_impl(array, index, value)`. -/
def darray_insert (env : Env) (array : Block) (index : Nat) (value : List Byte) :
    Outcome Block :=
  darray_insert_impl env array index value

/-- The function `darray_remove_impl(array, index, amount)`. -/
def darray_remove_impl (env : Env) (array : Block) (index amount : Nat) : Outcome Block := do
  DRUNTIME_DEBUG_ASSERT env true Assertion.array_null
  let count ← darray_count array
  DRUNTIME_DEBUG_ASSERT env (decide (index > count)) Assertion.index_out_of_bounds
  darray_shift_down_impl env array index amount

/-- The macro `darray_remove(array, index)`: `darray_remove_impl(array, index, 1)`. -/
def darray_remove (env : Env) (array : Block) (index : Nat) : Outcome Block :=
  darray_remove_impl env array index 1

/-- The macro `darray_remove_span(array, index, count)`:
`darray_remove_impl(array, index, count)`. -/
def darray_remove_span (env : Env) (array : Block) (index count : Nat) : Outcome Block :=
  darray_remove_impl env array index count

/-! ## Reading a block as an array -/

/-- The bytes of the slot at `index` when slots are `stride` bytes wide:
`(char *)array + index * stride`, `stride` bytes. -/
def slot (m : Block) (stride index : Nat) : Outcome (List Byte) :=
  load_bytes m (PAYLOAD + (index * stride : Nat)) stride

/-- The payload: every byte from the handle on. -/
def payload (m : Block) : List Byte := m.drop (_DARRAY_TAG_ENUM_END * WORD)

/-- A block laid out as the source lays it out: the word at `head[0]`, which no
field uses, then `capacity`, `bytes`, `count`, then the payload bytes. -/
def block_with (unused : List Byte) (capacity bytes count : Nat) (payload : List Byte) : Block :=
  unused ++ le_bytes WORD capacity ++ le_bytes WORD bytes ++ le_bytes WORD count ++ payload

/-- A block as `block_with` lays it out, the unused word being zero. -/
def block_of (capacity bytes count : Nat) (payload : List Byte) : Block :=
  block_with (le_bytes WORD 0) capacity bytes count payload

/-- A block as `block_with` lays it out, the unused word still holding the
`0xAA` bytes a fresh allocation has under `debug_env`. -/
def fresh_block (capacity bytes count : Nat) (payload : List Byte) : Block :=
  block_with (List.replicate 8 170) capacity bytes count payload

/-- The default build (`NDEBUG` not defined), an allocator that never fails and
whose `realloc` keeps a block in place unless the request grows it, in which
case it moves it; fresh bytes read `0xAA`. -/
def debug_env : Env :=
  { ndebug := false, alloc_ok := fun _ => true, junk := fun _ => 170,
    moves := fun old_size new_size => decide (old_size < new_size) }

/-- The build with `NDEBUG` defined, same allocator. -/
def release_env : Env :=
  { ndebug := true, alloc_ok := fun _ => true, junk := fun _ => 170,
    moves := fun old_size new_size => decide (old_size < new_size) }

/-- The default build with an allocator that never fails and whose `realloc`
never moves a block. -/
def inplace_env : Env :=
  { ndebug := false, alloc_ok := fun _ => true, junk := fun _ => 170,
    moves := fun _ _ => false }

/-- The bytes of a sequence of numbers, each `width` bytes wide. -/
def words (width : Nat) : List Nat → List Byte
  | [] => []
  | x :: xs => le_bytes width x ++ words width xs

/-- A valid array in the sense of the data model: the four accessors read
`stride`, `count`, `bytes` and `capacity`, with `stride > 0`,
`count ≤ capacity` and `bytes = count * stride`. -/
structure ValidArray (m : Block) (stride count bytes capacity : Nat) : Prop where
  stride_eq : darray_stride m = Outcome.ok stride
  count_eq : darray_count m = Outcome.ok count
  bytes_eq : darray_bytes m = Outcome.ok bytes
  capacity_eq : darray_capacity m = Outcome.ok capacity
  stride_pos : 0 < stride
  count_le : count ≤ capacity
  bytes_cached : bytes = count * stride

/-! ## Concrete arrays

Slot 0 of every array below starts with the stride, because that is where
`darray_set_field_impl(block, _DARRAY_TAG_STRIDE, stride)` puts it. -/

/-- Eight-byte elements `[8, 20]`, capacity 3; the third slot holds a stale 7. -/
def push_input : Block := block_of 3 16 2 (words 8 [8, 20, 7])

/-- Eight-byte elements `[8, 20, 30]`, capacity 4; the fourth slot holds a stale 7. -/
def insert_input : Block := block_of 4 24 3 (words 8 [8, 20, 30, 7])

/-- Eight-byte elements `[8, 99, 20, 30]`, capacity 4. -/
def remove_input : Block := block_of 4 32 4 (words 8 [8, 99, 20, 30])

/-- Four-byte elements `[4, 0, 7]`, capacity 3. -/
def resize_input : Block := block_of 3 12 3 (words 4 [4, 0, 7])

/-- Eight-byte elements `[8, 20, 30]`, capacity 3. -/
def pop_input : Block := block_of 3 24 3 (words 8 [8, 20, 30])

/-- Eight-byte elements `[8, 20, 30]`, capacity 4; the fourth slot holds a stale 7. -/
def roundtrip_input : Block := block_of 4 24 3 (words 8 [8, 20, 30, 7])

/-- Eight-byte elements `[8, 20, 30, 40]`, capacity 5; the fifth slot holds a stale 7. -/
def inverse_input : Block := block_of 5 32 4 (words 8 [8, 20, 30, 40, 7])

/-- Eight-byte elements `[8, 20]`, capacity 4; the last two slots hold stale 6 and 7. -/
def append_input : Block := block_of 4 16 2 (words 8 [8, 20, 6, 7])

/-- Eight-byte elements `[8, 20, 30]`, capacity 6; the last three slots hold
stale 5, 6 and 7. -/
def bounds_input : Block := block_of 6 24 3 (words 8 [8, 20, 30, 5, 6, 7])

/-- Eight-byte elements `[8, 256, 30]`, capacity 5; the last two slots hold
stale 6 and 7. -/
def overlap_input : Block := block_of 5 24 3 (words 8 [8, 256, 30, 6, 7])

/-- The array `darray_create_impl(24, 1)` followed by `darray_pop` leaves under
`debug_env`: 24-byte elements, `count` 0, capacity 1. -/
def emptied_input : Block := fresh_block 1 0 0 (words 8 [24] ++ List.replicate 16 170)

/-- The macro `darray_push` applied to the values of a list in order. -/
def push_all (env : Env) : Block → List (List Byte) → Outcome Block
  | array, [] => Outcome.ok array
  | array, value :: rest => do
    let array ← darray_push env array value
    push_all env array rest

/-- The `size_t` value `last_index * stride` that `darray_push_impl` adds to the
handle, for `last_index = count - 1`. -/
def push_offset (count stride : Nat) : Nat :=
  (count + SIZE_MOD - 1) % SIZE_MOD * stride % SIZE_MOD

/-- The word of the allocation, counted from its first word, that
`darray_fetch_field_impl` and `darray_set_field_impl` access for `field`. -/
def field_word (field : Nat) : Int := field_addr field / (WORD : Nat)

/-! ## Memory lemmas -/

theorem le_bytes_length (n w : Nat) : (le_bytes n w).length = n := by
  induction n generalizing w with
  | zero => rfl
  | succ k ih => simp [le_bytes, ih]

theorem le_value_lt (bs : List Byte) : le_value bs < 256 ^ bs.length := by
  induction bs with
  | nil => simp [le_value]
  | cons b t ih =>
    have hb := b.isLt
    simp only [le_value, List.length_cons, pow_succ]
    omega

theorem le_value_le_bytes (n w : Nat) : le_value (le_bytes n w) = w % 256 ^ n := by
  induction n generalizing w with
  | zero => simp [le_bytes, le_value, Nat.mod_one]
  | succ k ih =>
    simp only [le_bytes, le_value, ih, Fin.ofNat, pow_succ]
    rw [Nat.mul_comm (256 ^ k) 256, Nat.mod_mul]

theorem splice_length (m : Block) (a : Nat) (bs : List Byte) (h : a + bs.length ≤ m.length) :
    (splice m a bs).length = m.length := by
  simp [splice]; omega

theorem window_length (m : Block) (a len : Nat) (h : a + len ≤ m.length) :
    (window m a len).length = len := by
  simp [window]; omega

theorem window_splice_same (m : Block) (a : Nat) (bs : List Byte) (h : a + bs.length ≤ m.length) :
    window (splice m a bs) a bs.length = bs := by
  have h1 : (m.take a).length = a := by simp; omega
  unfold window splice
  rw [List.append_assoc, List.drop_append_of_le_length (by omega)]
  rw [List.drop_of_length_le (by omega), List.nil_append, List.take_left']
  rfl

theorem window_splice_before (m : Block) (a : Nat) (bs : List Byte) (a2 len : Nat)
    (h2 : a2 + len ≤ a) (h : a ≤ m.length):
    window (splice m a bs) a2 len = window m a2 len := by
  have h1 : (m.take a).length = a := by simp; omega
  unfold window splice
  rw [List.append_assoc, List.drop_append_of_le_length (by omega)]
  rw [List.take_append_of_le_length (by simp; omega)]
  rw [List.drop_take, List.take_take]
  congr 1; omega

theorem drop_splice (m : Block) (a : Nat) (bs : List Byte) (k : Nat)
    (h2 : a + bs.length ≤ k) (h : a ≤ m.length) :
    (splice m a bs).drop k = m.drop k := by
  have h1 : (m.take a ++ bs).length = a + bs.length := by simp; omega
  unfold splice
  rw [List.drop_append_eq_append_drop, List.drop_of_length_le (by omega), List.nil_append, h1,
    List.drop_drop]
  congr 1; omega

theorem window_splice_after (m : Block) (a : Nat) (bs : List Byte) (a2 len : Nat)
    (h2 : a + bs.length ≤ a2) (h : a ≤ m.length) :
    window (splice m a bs) a2 len = window m a2 len := by
  unfold window
  rw [drop_splice m a bs a2 h2 h]

theorem take_splice (m : Block) (a : Nat) (bs : List Byte) (k : Nat)
    (h2 : k ≤ a) (h : a ≤ m.length) :
    (splice m a bs).take k = m.take k := by
  have h1 : (m.take a).length = a := by simp; omega
  unfold splice
  rw [List.append_assoc, List.take_append_of_le_length (by omega), List.take_take]
  congr 1; omega

@[simp] theorem ok_bind {α β : Type} (a : α) (f : α → Outcome β) :
    (Outcome.ok a >>= f) = f a := rfl

@[simp] theorem fault_bind {α β : Type} (e : Fault) (f : α → Outcome β) :
    (Outcome.fault e >>= f) = Outcome.fault e := rfl

@[simp] theorem pure_eq_ok {α : Type} (a : α) : (pure a : Outcome α) = Outcome.ok a := rfl

@[simp] theorem debug_assert_true (env : Env) (msg : Assertion) :
    DRUNTIME_DEBUG_ASSERT env true msg = Outcome.ok () := by
  unfold DRUNTIME_DEBUG_ASSERT DRUNTIME_ASSERT
  cases env.ndebug <;> rfl

theorem fetch_eq (m : Block) (f : Nat) (hf : f ≤ 4) (hlen : 40 ≤ m.length + 8 * f) :
    darray_fetch_field_impl m f = Outcome.ok (le_value (window m (32 - 8 * f) 8)) := by
  have h : (0 : Int) ≤ field_addr f ∧ field_addr f + (WORD : Nat) ≤ (m.length : Nat) := by
    simp only [field_addr, PAYLOAD, _DARRAY_TAG_ENUM_END, WORD]; push_cast; omega
  have h2 : (field_addr f).toNat = 32 - 8 * f := by
    simp only [field_addr, PAYLOAD, _DARRAY_TAG_ENUM_END, WORD]; push_cast; omega
  simp only [darray_fetch_field_impl, load_bytes, if_pos h, h2]
  rfl

theorem fetch_ok_length (m : Block) (f v : Nat)
    (h : darray_fetch_field_impl m f = Outcome.ok v) : 40 ≤ m.length + 8 * f := by
  by_contra hn
  have h1 : ¬ ((0 : Int) ≤ field_addr f ∧ field_addr f + (WORD : Nat) ≤ (m.length : Nat)) := by
    simp only [field_addr, PAYLOAD, _DARRAY_TAG_ENUM_END, WORD]; push_cast; omega
  simp only [darray_fetch_field_impl, load_bytes, if_neg h1] at h
  cases h

theorem set_eq (m : Block) (f v : Nat) (hf : f ≤ 4) (hlen : 40 ≤ m.length + 8 * f) :
    darray_set_field_impl m f v = Outcome.ok (splice m (32 - 8 * f) (le_bytes 8 v)) := by
  have h : (0 : Int) ≤ field_addr f ∧
      field_addr f + ((le_bytes WORD v).length : Nat) ≤ (m.length : Nat) := by
    rw [le_bytes_length]
    simp only [field_addr, PAYLOAD, _DARRAY_TAG_ENUM_END, WORD]; push_cast; omega
  have h2 : (field_addr f).toNat = 32 - 8 * f := by
    simp only [field_addr, PAYLOAD, _DARRAY_TAG_ENUM_END, WORD]; push_cast; omega
  simp only [darray_set_field_impl, store_bytes, if_pos h, h2]
  rfl

theorem fetch_splice_same (m : Block) (f v : Nat) (hf : f ≤ 4) (hlen : 40 ≤ m.length + 8 * f) :
    darray_fetch_field_impl (splice m (32 - 8 * f) (le_bytes 8 v)) f = Outcome.ok (v % SIZE_MOD) := by
  have hl : (le_bytes 8 v).length = 8 := le_bytes_length 8 v
  have hb : 32 - 8 * f + (le_bytes 8 v).length ≤ m.length := by omega
  rw [fetch_eq _ f hf (by rw [splice_length m _ _ hb]; exact hlen)]
  have := window_splice_same m (32 - 8 * f) (le_bytes 8 v) hb
  rw [hl] at this
  rw [this, le_value_le_bytes]
  rfl

theorem fetch_splice_other (m : Block) (f g v : Nat) (hf : f ≤ 4) (hg : g ≤ 4) (hfg : f ≠ g)
    (hlen : 40 ≤ m.length + 8 * g) :
    darray_fetch_field_impl (splice m (32 - 8 * g) (le_bytes 8 v)) f = darray_fetch_field_impl m f := by
  have hl : (le_bytes 8 v).length = 8 := le_bytes_length 8 v
  have hb : 32 - 8 * g + (le_bytes 8 v).length ≤ m.length := by omega
  by_cases hlf : 40 ≤ m.length + 8 * f
  · rw [fetch_eq _ f hf (by rw [splice_length m _ _ hb]; exact hlf), fetch_eq m f hf hlf]
    rcases Nat.lt_or_gt_of_ne hfg with h | h
    · rw [window_splice_after m _ _ _ _ (by omega) (by omega)]
    · rw [window_splice_before m _ _ _ _ (by omega) (by omega)]
  · have h1 : ¬ ((0 : Int) ≤ field_addr f ∧ field_addr f + (WORD : Nat) ≤ (m.length : Nat)) := by
      simp only [field_addr, PAYLOAD, _DARRAY_TAG_ENUM_END, WORD]; push_cast; omega
    have h2 : ¬ ((0 : Int) ≤ field_addr f ∧
        field_addr f + (WORD : Nat) ≤ ((splice m (32 - 8 * g) (le_bytes 8 v)).length : Nat)) := by
      rw [splice_length m _ _ hb]; exact h1
    simp only [darray_fetch_field_impl, load_bytes, if_neg h1, if_neg h2]

theorem fetch_lt (m : Block) (f v : Nat) (hf : f ≤ 4)
    (h : darray_fetch_field_impl m f = Outcome.ok v) : v < SIZE_MOD := by
  have hlen := fetch_ok_length m f v h
  rw [fetch_eq m f hf hlen] at h
  injection h with h
  rw [← h]
  have := le_value_lt (window m (32 - 8 * f) 8)
  rw [window_length m _ _ (by omega)] at this
  exact this

/-- Below `2^22` both the conversion to `float` and the product with `1.5f` are
exact, so the growth step is `n + n / 2`. -/
theorem times_DGROWTH_FACTOR_small (n : Nat) (h : n < 2 ^ 22) :
    times_DGROWTH_FACTOR n = Outcome.ok (n + n / 2) := by
  have h1 : n < 2 ^ 24 := by omega
  have h2 : 3 * n < 2 ^ 24 := by omega
  have h3 : 3 * n / 2 < SIZE_MOD := by unfold SIZE_MOD; omega
  unfold times_DGROWTH_FACTOR
  simp only [round_f32, if_pos h1, if_pos h2, if_pos h3]
  congr 1
  omega

/-! ## What create and resize do when the stride word fits -/

theorem window_take_append (m t : Block) (n a len : Nat) (h1 : a + len ≤ n) (h2 : a + len ≤ m.length) :
    window (m.take n ++ t) a len = window m a len := by
  have h3 : (m.take n).length = min n m.length := by simp
  unfold window
  rw [List.drop_append_of_le_length (by omega), List.take_append_of_le_length (by simp; omega),
    List.drop_take, List.take_take]
  congr 1; omega

theorem realloc_ok (env : Env) (m : Block) (size : Nat) (h0 : size ≠ 0)
    (h : env.alloc_ok size = true) :
    realloc env m size
      = some (m.take size ++ (List.range' m.length (size - m.length)).map env.junk) := by
  simp [realloc, h, h0]

theorem fetch_through_old_handle_stay (env : Env) (old new_block : Block) (size field : Nat)
    (h : env.moves old.length size = false) :
    fetch_through_old_handle env old new_block size field
      = darray_fetch_field_impl new_block field := by
  simp [fetch_through_old_handle, realloc_moves, h]

theorem fetch_through_old_handle_moved (env : Env) (old new_block : Block) (size field : Nat)
    (h : env.moves old.length size = true) :
    fetch_through_old_handle env old new_block size field = Outcome.fault Fault.ub := by
  simp [fetch_through_old_handle, realloc_moves, h]

theorem realloc_length (env : Env) (m : Block) (size : Nat) :
    (m.take size ++ (List.range' m.length (size - m.length)).map env.junk).length = size := by
  simp; omega

theorem fetch_take_append (m t : Block) (n f : Nat) (hf : f ≤ 4) (hn : 40 ≤ n + 8 * f)
    (hm : 40 ≤ m.length + 8 * f) :
    darray_fetch_field_impl (m.take n ++ t) f = darray_fetch_field_impl m f := by
  have hl : 40 ≤ (m.take n ++ t).length + 8 * f := by simp; omega
  rw [fetch_eq _ f hf hl, fetch_eq m f hf hm, window_take_append m t n _ _ (by omega) (by omega)]


theorem slot_eq (m : Block) (s i : Nat) (h : 32 + (i + 1) * s ≤ m.length) :
    slot m s i = Outcome.ok (window m (32 + i * s) s) := by
  have e : (i + 1) * s = i * s + s := by ring
  have h1 : (0 : Int) ≤ PAYLOAD + ((i * s : Nat) : Int) ∧
      PAYLOAD + ((i * s : Nat) : Int) + (s : Nat) ≤ (m.length : Nat) := by
    simp only [PAYLOAD, _DARRAY_TAG_ENUM_END, WORD]; push_cast; constructor <;> omega
  have h2 : (PAYLOAD + ((i * s : Nat) : Int)).toNat = 32 + i * s := by
    simp only [PAYLOAD, _DARRAY_TAG_ENUM_END, WORD]; omega
  simp only [slot, load_bytes, if_pos h1, h2]

theorem assert_some {α : Type} (a : α) (msg : Assertion) :
    DRUNTIME_ASSERT (some a).isSome msg = Outcome.ok () := rfl

/-- Away from the stride word: when the new payload still holds the stride word
(`8 ≤ k * stride`), the size does not wrap and the allocator serves the request,
`darray_resize_impl(array, k)` sets `capacity` to `k`, truncates `count` and
`bytes` when `k < count`, leaves them alone otherwise, keeps `stride`, and keeps
every surviving element. -/
theorem darray_resize_impl_spec (env : Env) (m : Block) (s c b cap k : Nat)
    (hv : ValidArray m s c b cap) (hback : 32 + c * s ≤ m.length)
    (hk : 8 ≤ k * s) (hsz : k * s + 32 < SIZE_MOD)
    (halloc : env.alloc_ok (k * s + 32) = true)
    (hstay : env.moves m.length (k * s + 32) = false) :
    ∃ m1, darray_resize_impl env m k = Outcome.ok m1 ∧ m1.length = 32 + k * s ∧
      darray_capacity m1 = Outcome.ok k ∧ darray_stride m1 = Outcome.ok s ∧
      (k < c → darray_count m1 = Outcome.ok k ∧ darray_bytes m1 = Outcome.ok (k * s)) ∧
      (c ≤ k → darray_count m1 = Outcome.ok c ∧ darray_bytes m1 = Outcome.ok b) ∧
      ∀ i, i < c → i < k → slot m1 s i = slot m s i := by
  obtain ⟨hs, hc, hb, hcap, hpos, hck, hbs⟩ := hv
  have hlen : 40 ≤ m.length := by
    have := fetch_ok_length m 0 s hs; omega
  have hks : k ≤ k * s := Nat.le_mul_of_pos_right k hpos
  have hklt : k < SIZE_MOD := by omega
  have hl : ∀ v, (le_bytes 8 v).length = 8 := le_bytes_length 8
  have esz : (k * s % SIZE_MOD + _DARRAY_HEADER_STRIDE) % SIZE_MOD = k * s + 32 := by
    have : _DARRAY_HEADER_STRIDE = 32 := rfl
    have h1 : k * s % SIZE_MOD = k * s := Nat.mod_eq_of_lt (by omega)
    rw [this, h1, Nat.mod_eq_of_lt hsz]
  generalize hm0 : m.take (k * s + 32) ++ (List.range' m.length (k * s + 32 - m.length)).map env.junk
    = m0
  have hm0len : m0.length = k * s + 32 := by rw [← hm0]; exact realloc_length env m _
  have hf0 : ∀ f, f ≤ 4 → darray_fetch_field_impl m0 f = darray_fetch_field_impl m f := by
    intro f hf
    rw [← hm0]
    exact fetch_take_append m _ _ f hf (by omega) (by omega)
  have hcount0 : fetch_through_old_handle env m m0 (k * s + 32) _DARRAY_TAG_COUNT
      = Outcome.ok c := by
    rw [fetch_through_old_handle_stay env m m0 _ _ hstay]
    exact (hf0 1 (by omega)).trans hc
  have hslot0 : ∀ i, i < c → i < k → slot m0 s i = slot m s i := by
    intro i hic hik
    have h1 : (i + 1) * s ≤ c * s := Nat.mul_le_mul_right s hic
    have h2 : (i + 1) * s ≤ k * s := Nat.mul_le_mul_right s hik
    have e : (i + 1) * s = i * s + s := by ring
    rw [slot_eq m0 s i (by omega), slot_eq m s i (by omega), ← hm0,
      window_take_append m _ _ _ _ (by omega) (by omega)]
  have hslot_splice : ∀ (x : Block) (f v i : Nat), 1 ≤ f → f ≤ 4 → 40 ≤ x.length →
      slot (splice x (32 - 8 * f) (le_bytes 8 v)) s i = slot x s i := by
    intro x f v i hf1 hf4 hx
    have h8 := hl v
    have hsl : (splice x (32 - 8 * f) (le_bytes 8 v)).length = x.length :=
      splice_length x _ _ (by omega)
    by_cases hin : 32 + (i + 1) * s ≤ x.length
    · rw [slot_eq _ s i (by omega), slot_eq x s i hin,
        window_splice_after x _ _ _ _ (by omega) (by omega)]
    · have e : (i + 1) * s = i * s + s := by ring
      have h1 : ∀ n : Nat, n = x.length → ¬ ((0 : Int) ≤ PAYLOAD + ((i * s : Nat) : Int) ∧
          PAYLOAD + ((i * s : Nat) : Int) + (s : Nat) ≤ (n : Nat)) := by
        intro n hn
        simp only [PAYLOAD, _DARRAY_TAG_ENUM_END, WORD]; push_cast; omega
      simp only [slot, load_bytes, if_neg (h1 _ hsl), if_neg (h1 _ rfl)]
  have hrun : darray_resize_impl env m k =
      if k < c then
        darray_set_field_impl m0 _DARRAY_TAG_COUNT k >>= fun b1 =>
          darray_set_field_impl b1 _DARRAY_TAG_BYTES (k * s % SIZE_MOD) >>= fun b2 =>
            darray_set_field_impl b2 _DARRAY_TAG_CAPACITY k
      else darray_set_field_impl m0 _DARRAY_TAG_CAPACITY k := by
    unfold darray_resize_impl
    simp only [debug_assert_true, ok_bind, hs, esz, realloc_ok env m _ (by omega) halloc,
      assert_some, Option.getD_some, hm0, hcount0, pure_eq_ok]
  rw [hrun]
  unfold darray_stride darray_count darray_bytes darray_capacity _DARRAY_TAG_STRIDE
    _DARRAY_TAG_COUNT _DARRAY_TAG_BYTES _DARRAY_TAG_CAPACITY at *
  by_cases hkc : k < c
  · rw [if_pos hkc, set_eq m0 1 _ (by omega) (by omega), ok_bind]
    generalize hb1 : splice m0 (32 - 8 * 1) (le_bytes 8 k) = b1
    have hb1len : b1.length = m0.length := by
      rw [← hb1]; exact splice_length m0 _ _ (by have := hl k; omega)
    rw [set_eq b1 2 _ (by omega) (by omega), ok_bind]
    generalize hb2 : splice b1 (32 - 8 * 2) (le_bytes 8 (k * s % SIZE_MOD)) = b2
    have hb2len : b2.length = b1.length := by
      rw [← hb2]; exact splice_length b1 _ _ (by have := hl (k * s % SIZE_MOD); omega)
    rw [set_eq b2 3 _ (by omega) (by omega)]
    refine ⟨_, rfl, ?_, ?_, ?_, ?_, ?_, ?_⟩
    · rw [splice_length b2 _ _ (by have := hl k; omega)]; omega
    · rw [fetch_splice_same b2 3 _ (by omega) (by omega), Nat.mod_eq_of_lt hklt]
    · rw [fetch_splice_other b2 0 3 _ (by omega) (by omega) (by omega) (by omega), ← hb2,
        fetch_splice_other b1 0 2 _ (by omega) (by omega) (by omega) (by omega), ← hb1,
        fetch_splice_other m0 0 1 _ (by omega) (by omega) (by omega) (by omega),
        hf0 0 (by omega), hs]
    · intro _
      constructor
      · rw [fetch_splice_other b2 1 3 _ (by omega) (by omega) (by omega) (by omega), ← hb2,
          fetch_splice_other b1 1 2 _ (by omega) (by omega) (by omega) (by omega), ← hb1,
          fetch_splice_same m0 1 _ (by omega) (by omega), Nat.mod_eq_of_lt hklt]
      · rw [fetch_splice_other b2 2 3 _ (by omega) (by omega) (by omega) (by omega), ← hb2,
          fetch_splice_same b1 2 _ (by omega) (by omega), Nat.mod_mod,
          Nat.mod_eq_of_lt (by omega)]
    · intro h; omega
    · intro i hic hik
      rw [hslot_splice b2 3 k i (by omega) (by omega) (by omega), ← hb2,
        hslot_splice b1 2 _ i (by omega) (by omega) (by omega), ← hb1,
        hslot_splice m0 1 k i (by omega) (by omega) (by omega)]
      exact hslot0 i hic hik
  · rw [if_neg hkc, set_eq m0 3 _ (by omega) (by omega)]
    refine ⟨_, rfl, ?_, ?_, ?_, ?_, ?_, ?_⟩
    · rw [splice_length m0 _ _ (by have := hl k; omega)]; omega
    · rw [fetch_splice_same m0 3 _ (by omega) (by omega), Nat.mod_eq_of_lt hklt]
    · rw [fetch_splice_other m0 0 3 _ (by omega) (by omega) (by omega) (by omega),
        hf0 0 (by omega), hs]
    · intro h; omega
    · intro _
      constructor
      · rw [fetch_splice_other m0 1 3 _ (by omega) (by omega) (by omega) (by omega),
          hf0 1 (by omega), hc]
      · rw [fetch_splice_other m0 2 3 _ (by omega) (by omega) (by omega) (by omega),
          hf0 2 (by omega), hb]
    · intro i hic hik
      rw [hslot_splice m0 3 k i (by omega) (by omega) (by omega)]
      exact hslot0 i hic hik

theorem bind_ok_right {α : Type} (x : Outcome α) : (x >>= fun a => Outcome.ok a) = x := by
  cases x <;> rfl

/-- Away from the stride word: when the payload is at least one word long
(`8 ≤ stride * max n 1`), `n < 2^22`, the size does not wrap and the allocator
serves the request, `darray_create_impl(stride, n)` returns a block whose header
reads `stride`, `max n 1`, `stride * max n 1` and `max n 1 * 1.5` truncated. -/
theorem darray_create_impl_spec (env : Env) (stride n : Nat)
    (hpos : 0 < stride) (hn : n < 2 ^ 22) (hword : 8 ≤ stride * max n 1)
    (hsz : stride * max n 1 + 32 < SIZE_MOD)
    (halloc : env.alloc_ok (stride * max n 1 + 32) = true) :
    ∃ m, darray_create_impl env stride n = Outcome.ok m ∧ m.length = 32 + stride * max n 1 ∧
      darray_stride m = Outcome.ok stride ∧ darray_count m = Outcome.ok (max n 1) ∧
      darray_bytes m = Outcome.ok (stride * max n 1) ∧
      darray_capacity m = Outcome.ok (max n 1 + max n 1 / 2) := by
  have hcount : (if n = 0 then 1 else n) = max n 1 := by
    split <;> omega
  generalize max n 1 = c at *
  have hc1 : 1 ≤ c := by
    rw [← hcount]; split <;> omega
  have hc22 : c < 2 ^ 22 := by
    rw [← hcount]; split <;> omega
  have hcs : c ≤ stride * c := Nat.le_mul_of_pos_left c hpos
  have hss : stride ≤ stride * c := Nat.le_mul_of_pos_right stride hc1
  have hl : ∀ v, (le_bytes 8 v).length = 8 := le_bytes_length 8
  have hne : (stride != 0) = true := by simp; omega
  have ebc : stride * c % SIZE_MOD = stride * c := Nat.mod_eq_of_lt (by omega)
  have esz : (stride * c + _DARRAY_HEADER_STRIDE) % SIZE_MOD = stride * c + 32 := by
    have : _DARRAY_HEADER_STRIDE = 32 := rfl
    rw [this, Nat.mod_eq_of_lt hsz]
  have hmalloc : malloc env (stride * c + 32)
      = some ((List.range (stride * c + 32)).map env.junk) := by
    simp [malloc, halloc]
  generalize hm0 : (List.range (stride * c + 32)).map env.junk = m0 at hmalloc
  have hm0len : m0.length = stride * c + 32 := by rw [← hm0]; simp
  have hrun : darray_create_impl env stride n =
      darray_set_field_impl m0 _DARRAY_TAG_STRIDE stride >>= fun b1 =>
      darray_set_field_impl b1 _DARRAY_TAG_COUNT c >>= fun b2 =>
      darray_set_field_impl b2 _DARRAY_TAG_BYTES (stride * c) >>= fun b3 =>
      darray_set_field_impl b3 _DARRAY_TAG_CAPACITY (c + c / 2) >>= fun b4 =>
      Outcome.ok b4 := by
    unfold darray_create_impl
    simp only [hne, hcount, ebc, esz, hmalloc, assert_some, Option.getD_some, ok_bind,
      pure_eq_ok, times_DGROWTH_FACTOR_small c hc22, DRUNTIME_DEBUG_ASSERT, DRUNTIME_ASSERT,
      if_true]
    cases env.ndebug <;> simp [bind_ok_right]
  have hS : SIZE_MOD = 18446744073709551616 := by unfold SIZE_MOD; norm_num
  rw [hrun]
  unfold darray_stride darray_count darray_bytes darray_capacity _DARRAY_TAG_STRIDE
    _DARRAY_TAG_COUNT _DARRAY_TAG_BYTES _DARRAY_TAG_CAPACITY at *
  rw [set_eq m0 0 _ (by omega) (by omega), ok_bind]
  generalize hb1 : splice m0 (32 - 8 * 0) (le_bytes 8 stride) = b1
  have hb1len : b1.length = m0.length := by
    rw [← hb1]; exact splice_length m0 _ _ (by have := hl stride; omega)
  rw [set_eq b1 1 _ (by omega) (by omega), ok_bind]
  generalize hb2 : splice b1 (32 - 8 * 1) (le_bytes 8 c) = b2
  have hb2len : b2.length = b1.length := by
    rw [← hb2]; exact splice_length b1 _ _ (by have := hl c; omega)
  rw [set_eq b2 2 _ (by omega) (by omega), ok_bind]
  generalize hb3 : splice b2 (32 - 8 * 2) (le_bytes 8 (stride * c)) = b3
  have hb3len : b3.length = b2.length := by
    rw [← hb3]; exact splice_length b2 _ _ (by have := hl (stride * c); omega)
  rw [set_eq b3 3 _ (by omega) (by omega), ok_bind]
  refine ⟨_, rfl, ?_, ?_, ?_, ?_, ?_⟩
  · rw [splice_length b3 _ _ (by have := hl (c + c / 2); omega)]; omega
  · rw [fetch_splice_other b3 0 3 _ (by omega) (by omega) (by omega) (by omega), ← hb3,
      fetch_splice_other b2 0 2 _ (by omega) (by omega) (by omega) (by omega), ← hb2,
      fetch_splice_other b1 0 1 _ (by omega) (by omega) (by omega) (by omega), ← hb1,
      fetch_splice_same m0 0 _ (by omega) (by omega), Nat.mod_eq_of_lt (by omega)]
  · rw [fetch_splice_other b3 1 3 _ (by omega) (by omega) (by omega) (by omega), ← hb3,
      fetch_splice_other b2 1 2 _ (by omega) (by omega) (by omega) (by omega), ← hb2,
      fetch_splice_same b1 1 _ (by omega) (by omega), Nat.mod_eq_of_lt (by omega)]
  · rw [fetch_splice_other b3 2 3 _ (by omega) (by omega) (by omega) (by omega), ← hb3,
      fetch_splice_same b2 2 _ (by omega) (by omega), Nat.mod_eq_of_lt (by omega)]
  · rw [fetch_splice_same b3 3 _ (by omega) (by omega), Nat.mod_eq_of_lt (by omega)]

/-! ## Supporting facts for reserve, the stride check and the bounds checks -/

/-- A write to one of the three header words in front of the payload changes no
slot. -/
theorem slot_splice_header (x : Block) (s f v i : Nat) (hf1 : 1 ≤ f) (hf4 : f ≤ 4)
    (hx : 32 ≤ x.length) :
    slot (splice x (32 - 8 * f) (le_bytes 8 v)) s i = slot x s i := by
  have h8 : (le_bytes 8 v).length = 8 := le_bytes_length 8 v
  have hsl : (splice x (32 - 8 * f) (le_bytes 8 v)).length = x.length :=
    splice_length x _ _ (by omega)
  by_cases hin : 32 + (i + 1) * s ≤ x.length
  · rw [slot_eq _ s i (by omega), slot_eq x s i hin,
      window_splice_after x _ _ _ _ (by omega) (by omega)]
  · have e : (i + 1) * s = i * s + s := by ring
    have h1 : ∀ n : Nat, n = x.length → ¬ ((0 : Int) ≤ PAYLOAD + ((i * s : Nat) : Int) ∧
        PAYLOAD + ((i * s : Nat) : Int) + (s : Nat) ≤ (n : Nat)) := by
      intro n hn
      simp only [PAYLOAD, _DARRAY_TAG_ENUM_END, WORD]; push_cast; omega
    simp only [slot, load_bytes, if_neg (h1 _ hsl), if_neg (h1 _ rfl)]

/-- Growing or keeping: when `count ≤ k`, the size does not wrap and the
allocator serves the request, `darray_resize_impl(array, k)` sets `capacity` to
`k` and keeps `count`, `bytes` and every stored element. -/
theorem darray_resize_impl_grow (env : Env) (m : Block) (s c b cap k : Nat)
    (hv : ValidArray m s c b cap) (hback : 32 + c * s ≤ m.length) (hck : c ≤ k)
    (hsz : k * s + 32 < SIZE_MOD) (halloc : env.alloc_ok (k * s + 32) = true)
    (hstay : env.moves m.length (k * s + 32) = false) :
    ∃ m1, darray_resize_impl env m k = Outcome.ok m1 ∧ m1.length = 32 + k * s ∧
      darray_capacity m1 = Outcome.ok k ∧ darray_count m1 = Outcome.ok c ∧
      darray_bytes m1 = Outcome.ok b ∧ ∀ i, i < c → slot m1 s i = slot m s i := by
  obtain ⟨hs, hc, hb, hcap, hpos, _, hbs⟩ := hv
  have hlen : 40 ≤ m.length := by
    have := fetch_ok_length m 0 s hs; omega
  have hks : k ≤ k * s := Nat.le_mul_of_pos_right k hpos
  have hklt : k < SIZE_MOD := by omega
  have hl : ∀ v, (le_bytes 8 v).length = 8 := le_bytes_length 8
  have esz : (k * s % SIZE_MOD + _DARRAY_HEADER_STRIDE) % SIZE_MOD = k * s + 32 := by
    have : _DARRAY_HEADER_STRIDE = 32 := rfl
    have h1 : k * s % SIZE_MOD = k * s := Nat.mod_eq_of_lt (by omega)
    rw [this, h1, Nat.mod_eq_of_lt hsz]
  generalize hm0 : m.take (k * s + 32) ++ (List.range' m.length (k * s + 32 - m.length)).map env.junk
    = m0
  have hm0len : m0.length = k * s + 32 := by rw [← hm0]; exact realloc_length env m _
  have hf0 : ∀ f, 1 ≤ f → f ≤ 4 → darray_fetch_field_impl m0 f = darray_fetch_field_impl m f := by
    intro f hf1 hf
    rw [← hm0]
    exact fetch_take_append m _ _ f hf (by omega) (by omega)
  have hcount0 : fetch_through_old_handle env m m0 (k * s + 32) _DARRAY_TAG_COUNT
      = Outcome.ok c := by
    rw [fetch_through_old_handle_stay env m m0 _ _ hstay]
    exact (hf0 1 (by omega) (by omega)).trans hc
  have hslot0 : ∀ i, i < c → slot m0 s i = slot m s i := by
    intro i hic
    have h1 : (i + 1) * s ≤ c * s := Nat.mul_le_mul_right s hic
    have h2 : c * s ≤ k * s := Nat.mul_le_mul_right s hck
    have e : (i + 1) * s = i * s + s := by ring
    rw [slot_eq m0 s i (by omega), slot_eq m s i (by omega), ← hm0,
      window_take_append m _ _ _ _ (by omega) (by omega)]
  have hrun : darray_resize_impl env m k = darray_set_field_impl m0 _DARRAY_TAG_CAPACITY k := by
    unfold darray_resize_impl
    simp only [debug_assert_true, ok_bind, hs, esz, realloc_ok env m _ (by omega) halloc,
      assert_some, Option.getD_some, hm0, hcount0, pure_eq_ok, if_neg (Nat.not_lt.mpr hck)]
  rw [hrun]
  unfold darray_stride darray_count darray_bytes darray_capacity _DARRAY_TAG_STRIDE
    _DARRAY_TAG_COUNT _DARRAY_TAG_BYTES _DARRAY_TAG_CAPACITY at *
  rw [set_eq m0 3 _ (by omega) (by omega)]
  refine ⟨_, rfl, ?_, ?_, ?_, ?_, ?_⟩
  · rw [splice_length m0 _ _ (by have := hl k; omega)]; omega
  · rw [fetch_splice_same m0 3 _ (by omega) (by omega), Nat.mod_eq_of_lt hklt]
  · rw [fetch_splice_other m0 1 3 _ (by omega) (by omega) (by omega) (by omega),
      hf0 1 (by omega) (by omega), hc]
  · rw [fetch_splice_other m0 2 3 _ (by omega) (by omega) (by omega) (by omega),
      hf0 2 (by omega) (by omega), hb]
  · intro i hic
    rw [slot_splice_header m0 s 3 k i (by omega) (by omega) (by omega)]
    exact hslot0 i hic

/-- In the default build `darray_insert_impl` ends in the bounds assertion for
every index up to and including `count`. -/
theorem insert_aborts_up_to_count (env : Env) (m : Block) (c index : Nat) (value : List Byte)
    (hdebug : env.ndebug = false) (hc : darray_count m = Outcome.ok c) (h : index ≤ c) :
    darray_insert_impl env m index value
      = Outcome.fault (Fault.abort Assertion.index_out_of_bounds) := by
  have hd : decide (index > c) = false := by simp; omega
  unfold darray_insert_impl
  simp only [debug_assert_true, ok_bind, hc, hd, DRUNTIME_DEBUG_ASSERT, DRUNTIME_ASSERT, hdebug]
  rfl

/-- In the default build `darray_remove_impl` ends in the bounds assertion for
every index up to and including `count`. -/
theorem remove_aborts_up_to_count (env : Env) (m : Block) (c index amount : Nat)
    (hdebug : env.ndebug = false) (hc : darray_count m = Outcome.ok c) (h : index ≤ c) :
    darray_remove_impl env m index amount
      = Outcome.fault (Fault.abort Assertion.index_out_of_bounds) := by
  have hd : decide (index > c) = false := by simp; omega
  unfold darray_remove_impl
  simp only [debug_assert_true, ok_bind, hc, hd, DRUNTIME_DEBUG_ASSERT, DRUNTIME_ASSERT, hdebug]
  rfl

/-- The destination `darray_push_impl` copies to is the handle plus `push_offset`. -/
theorem ptr_add_push_offset (count stride : Nat) :
    ptr_add PAYLOAD (push_offset count stride)
      = ptr_add PAYLOAD ((count + SIZE_MOD - 1) % SIZE_MOD * stride) := by
  unfold ptr_add push_offset
  rw [Nat.mod_mod]

/-- Resizing to capacity 0 is served like any other request: on the array
`[8, 20]` it leaves the bare 32-byte header with `count`, `bytes` and `capacity`
all 0. -/
theorem resize_to_zero :
    darray_resize_impl debug_env push_input 0 = Outcome.ok (block_of 0 0 0 []) ∧
    darray_capacity (block_of 0 0 0 []) = Outcome.ok 0 ∧
    darray_count (block_of 0 0 0 []) = Outcome.ok 0 := by
  refine ⟨?_, ?_, ?_⟩ <;> decide

/-- When `realloc` serves the request and moves the block, the read of `count`
on line 102 goes through the freed handle: `darray_resize_impl` has no defined
result. -/
theorem darray_resize_impl_moved (env : Env) (m new_block : Block) (s k : Nat)
    (hs : darray_stride m = Outcome.ok s)
    (hre : realloc env m ((k * s % SIZE_MOD + _DARRAY_HEADER_STRIDE) % SIZE_MOD)
      = some new_block)
    (hmoves : env.moves m.length ((k * s % SIZE_MOD + _DARRAY_HEADER_STRIDE) % SIZE_MOD)
      = true) :
    darray_resize_impl env m k = Outcome.fault Fault.ub := by
  unfold darray_resize_impl
  simp only [debug_assert_true, ok_bind, hs, hre, assert_some, Option.getD_some,
    fetch_through_old_handle_moved env m new_block _ _ hmoves, fault_bind]

/-- Under `debug_env`, whose `realloc` moves a block that grows, reserving three
more elements on the array `[8, 20]` ends in the read through the freed handle. -/
theorem reserve_growth_moved :
    debug_env.moves push_input.length ((2 + 3) * 8 + 32) = true ∧
    darray_reserve debug_env push_input 3 = Outcome.fault Fault.ub := by
  refine ⟨?_, ?_⟩ <;> decide

/-! ## Claims -/

/-- C1. The claim: `darray_push_impl` stores the value in the slot at index old
`count` and leaves the elements below it unchanged. The code computes
`last_index = count - 1` and copies there. On the valid array `[8, 20]` with
capacity 3, pushing 30 overwrites element 1 (20 becomes 30) and leaves the slot
at index 2, the old `count`, as it was; `count` and `bytes` do become 3 and 24. -/
theorem push_stores_below_count :
    ValidArray push_input 8 2 16 3 ∧
    slot push_input 8 1 = Outcome.ok (le_bytes 8 20) ∧
    darray_push_impl debug_env push_input (le_bytes 8 30)
      = Outcome.ok (block_of 3 24 3 (words 8 [8, 30, 7])) ∧
    slot (block_of 3 24 3 (words 8 [8, 30, 7])) 8 2 = Outcome.ok (le_bytes 8 7) ∧
    slot (block_of 3 24 3 (words 8 [8, 30, 7])) 8 1 = Outcome.ok (le_bytes 8 30) ∧
    le_bytes 8 7 ≠ le_bytes 8 30 ∧ le_bytes 8 30 ≠ le_bytes 8 20 := by
  refine ⟨⟨?_, ?_, ?_, ?_, ?_, ?_, ?_⟩, ?_, ?_, ?_, ?_, ?_, ?_⟩ <;> decide

/-- C2. The claim: `darray_insert_impl(array, idx, v)` yields
`original[0:idx] ++ [v] ++ original[idx:]`. On the valid array `[8, 20, 30]`,
inserting 99 at index 1 should give `[8, 99, 20, 30]`. In the default build the
call aborts, because the code asserts `index > count`. With `NDEBUG` the call
returns `[8, 99, 30, 7]` with `count` 4: `darray_shift_up_impl` moves `stride`
bytes down by one byte instead of moving the tail up by one slot, so 20 is lost
and the slot at index 3 keeps its stale content. -/
theorem insert_does_not_shift :
    ValidArray insert_input 8 3 24 4 ∧
    darray_insert_impl debug_env insert_input 1 (le_bytes 8 99)
      = Outcome.fault (Fault.abort Assertion.index_out_of_bounds) ∧
    darray_insert_impl release_env insert_input 1 (le_bytes 8 99)
      = Outcome.ok (block_of 4 32 4 (words 8 [8, 99, 30, 7])) ∧
    words 8 [8, 99, 30, 7] ≠ words 8 [8, 99, 20, 30] := by
  refine ⟨⟨?_, ?_, ?_, ?_, ?_, ?_, ?_⟩, ?_, ?_, ?_⟩ <;> decide

/-- C3. The claim: `darray_remove_impl(array, idx, amount)` yields
`original[0:idx] ++ original[idx+amount:]`. On the valid array
`[8, 99, 20, 30]`, removing index 2 should give `[8, 99, 30]`. In the default
build the call aborts, because the code asserts `index > count`. With `NDEBUG`
the call returns `[8, 99 + 20 * 2^56, 0]` with `count` 3:
`darray_shift_down_impl` moves the removed element itself down by one byte
instead of moving the elements above it down by one slot. -/
theorem remove_does_not_close_gap :
    ValidArray remove_input 8 4 32 4 ∧
    darray_remove_impl debug_env remove_input 2 1
      = Outcome.fault (Fault.abort Assertion.index_out_of_bounds) ∧
    darray_remove_impl release_env remove_input 2 1
      = Outcome.ok (block_of 4 24 3 (words 8 [8, 99 + 20 * 2 ^ 56, 0, 30])) ∧
    words 8 [8, 99 + 20 * 2 ^ 56, 0] ≠ words 8 [8, 99, 30] := by
  refine ⟨⟨?_, ?_, ?_, ?_, ?_, ?_, ?_⟩, ?_, ?_, ?_⟩ <;> decide

/-- C4. The claim: `darray_resize_impl(array, k)` sets `capacity` to `k`,
truncates when `k < count`, and leaves `stride` unchanged. The stride word is
kept at `array - 0`, the first eight payload bytes. Resizing the valid array of
four-byte elements `[4, 0, 7]` to capacity 1 leaves a block of `32 + 4` bytes:
`count` and `capacity` read 1 as claimed, but the stride word now reaches four
bytes past the end of the block, so `darray_stride` no longer reads 4. -/
theorem resize_loses_stride :
    ValidArray resize_input 4 3 12 3 ∧
    darray_resize_impl debug_env resize_input 1
      = Outcome.ok (block_of 1 4 1 (words 4 [4])) ∧
    darray_count (block_of 1 4 1 (words 4 [4])) = Outcome.ok 1 ∧
    darray_capacity (block_of 1 4 1 (words 4 [4])) = Outcome.ok 1 ∧
    (block_of 1 4 1 (words 4 [4])).length = 36 ∧
    darray_stride (block_of 1 4 1 (words 4 [4])) = Outcome.fault Fault.ub := by
  refine ⟨⟨?_, ?_, ?_, ?_, ?_, ?_, ?_⟩, ?_, ?_, ?_, ?_, ?_⟩ <;> decide

/-- C5. For every valid array with `count > 0`, in either build, `darray_pop`
returns, decrements `count` by exactly 1 and `bytes` by exactly `stride`, and
leaves `stride`, `capacity` and every payload byte unchanged, the bytes of the
slot that became unused included. -/
theorem darray_pop_spec (env : Env) (m : Block) (s c b k : Nat)
    (hv : ValidArray m s c b k) (hc0 : 0 < c) :
    ∃ m1, darray_pop env m = Outcome.ok m1 ∧
      darray_count m1 = Outcome.ok (c - 1) ∧ darray_bytes m1 = Outcome.ok (b - s) ∧
      darray_stride m1 = Outcome.ok s ∧ darray_capacity m1 = Outcome.ok k ∧
      payload m1 = payload m := by
  obtain ⟨hs, hc, hb, hk, hpos, hck, hbs⟩ := hv
  have hlen : 40 ≤ m.length := by
    have := fetch_ok_length m 0 s hs; omega
  have hclt := fetch_lt m 1 c (by omega) hc
  have hblt := fetch_lt m 2 b (by omega) hb
  have hsb : s ≤ b := by rw [hbs]; exact Nat.le_mul_of_pos_left s hc0
  have e1 : (c + SIZE_MOD - 1) % SIZE_MOD = c - 1 := by
    unfold SIZE_MOD at *; omega
  have e2 : (b + SIZE_MOD - s) % SIZE_MOD = b - s := by
    unfold SIZE_MOD at *; omega
  have hl : ∀ v, (le_bytes 8 v).length = 8 := le_bytes_length 8
  have hlen1 : (splice m (32 - 8 * 1) (le_bytes 8 (c - 1))).length = m.length :=
    splice_length m _ _ (by have := hl (c - 1); omega)
  refine ⟨splice (splice m (32 - 8 * 1) (le_bytes 8 (c - 1))) (32 - 8 * 2) (le_bytes 8 (b - s)),
    ?_, ?_, ?_, ?_, ?_, ?_⟩
  · unfold darray_pop
    simp only [debug_assert_true, ok_bind]
    unfold darray_count at hc
    unfold darray_bytes at hb
    unfold darray_stride at hs
    unfold darray_count darray_bytes darray_stride _DARRAY_TAG_COUNT _DARRAY_TAG_BYTES
      _DARRAY_TAG_STRIDE at *
    rw [hc, ok_bind, e1, set_eq m 1 _ (by omega) (by omega), ok_bind,
      fetch_splice_other m 2 1 _ (by omega) (by omega) (by omega) (by omega), hb, ok_bind,
      fetch_splice_other m 0 1 _ (by omega) (by omega) (by omega) (by omega), hs, ok_bind, e2,
      set_eq _ 2 _ (by omega) (by omega)]
  · unfold darray_count _DARRAY_TAG_COUNT at *
    rw [fetch_splice_other _ 1 2 _ (by omega) (by omega) (by omega) (by omega),
      fetch_splice_same m 1 _ (by omega) (by omega)]
    rw [Nat.mod_eq_of_lt (by omega)]
  · unfold darray_bytes _DARRAY_TAG_BYTES at *
    rw [fetch_splice_same _ 2 _ (by omega) (by omega)]
    rw [Nat.mod_eq_of_lt (by omega)]
  · unfold darray_stride _DARRAY_TAG_STRIDE at *
    rw [fetch_splice_other _ 0 2 _ (by omega) (by omega) (by omega) (by omega),
      fetch_splice_other _ 0 1 _ (by omega) (by omega) (by omega) (by omega), hs]
  · unfold darray_capacity _DARRAY_TAG_CAPACITY at *
    rw [fetch_splice_other _ 3 2 _ (by omega) (by omega) (by omega) (by omega),
      fetch_splice_other _ 3 1 _ (by omega) (by omega) (by omega) (by omega), hk]
  · unfold payload _DARRAY_TAG_ENUM_END WORD
    have h1 := hl (c - 1)
    have h2 := hl (b - s)
    rw [drop_splice _ _ _ _ (by omega) (by omega), drop_splice _ _ _ _ (by omega) (by omega)]

/-- C5, at the array `[8, 20, 30]` of eight-byte elements with capacity 3. -/
theorem darray_pop_spec_witness :
    ValidArray pop_input 8 3 24 3 ∧ 0 < 3 ∧
    ∃ m1, darray_pop debug_env pop_input = Outcome.ok m1 ∧
      darray_count m1 = Outcome.ok (3 - 1) ∧ darray_bytes m1 = Outcome.ok (24 - 8) ∧
      darray_stride m1 = Outcome.ok 8 ∧ darray_capacity m1 = Outcome.ok 3 ∧
      payload m1 = payload pop_input :=
  have hv : ValidArray pop_input 8 3 24 3 :=
    ⟨by decide, by decide, by decide, by decide, by decide, by decide, by decide⟩
  ⟨hv, by decide, darray_pop_spec debug_env pop_input 8 3 24 3 hv (by decide)⟩

/-- C6. The claim: for every `stride > 0` and `n < 2^22`, `darray_create_impl`
returns an array whose header reads `stride`, `max(n, 1)`, `stride * max(n, 1)`
and the truncated `max(n, 1) * 1.5`. For four-byte elements and `n` of 0 or 1
the block is `4 + 32 = 36` bytes long, and the first header write,
`darray_set_field_impl(block, _DARRAY_TAG_STRIDE, stride)`, stores eight bytes at
offset 32: it runs four bytes past the end of the block, so the call has no
defined result. -/
theorem create_small_element_overruns :
    darray_create_impl debug_env 4 1 = Outcome.fault Fault.ub ∧
    darray_create_impl debug_env 4 0 = Outcome.fault Fault.ub ∧
    malloc debug_env 36 = some (List.replicate 36 170) ∧
    field_addr _DARRAY_TAG_STRIDE = 32 ∧
    darray_set_field_impl (List.replicate 36 170) _DARRAY_TAG_STRIDE 4
      = Outcome.fault Fault.ub := by
  refine ⟨?_, ?_, ?_, ?_, ?_⟩ <;> decide

/-- C7. The claim: every public operation keeps `capacity >= 1` and
`capacity >= count`. The array `darray_create_impl(16, 1)` returns is valid with
`count = capacity = 1`. Pushing onto it resizes to
`(size_t)(1 * 1.5f) = 1`, so the capacity stays 1 while `count` becomes 2. -/
theorem push_outgrows_capacity :
    darray_create_impl debug_env 16 1
      = Outcome.ok (fresh_block 1 16 1 (words 8 [16] ++ List.replicate 8 170)) ∧
    ValidArray (fresh_block 1 16 1 (words 8 [16] ++ List.replicate 8 170)) 16 1 16 1 ∧
    darray_push_impl debug_env (fresh_block 1 16 1 (words 8 [16] ++ List.replicate 8 170))
        (words 8 [16, 5])
      = Outcome.ok (fresh_block 1 32 2 (words 8 [16, 5])) ∧
    darray_count (fresh_block 1 32 2 (words 8 [16, 5])) = Outcome.ok 2 ∧
    darray_capacity (fresh_block 1 32 2 (words 8 [16, 5])) = Outcome.ok 1 := by
  refine ⟨?_, ⟨?_, ?_, ?_, ?_, ?_, ?_, ?_⟩, ?_, ?_, ?_⟩ <;> decide

/-- C8. The claim: after every public operation the accessors satisfy
`darray_bytes = darray_count * darray_stride`. The array
`darray_create_impl(8, 1)` returns is valid with stride 8 and `count` 1. Pushing
the value 99 copies it to slot 0, which is where the stride word lives:
afterwards the accessors report stride 99, `count` 2 and `bytes` 16. -/
theorem push_overwrites_stride :
    darray_create_impl debug_env 8 1 = Outcome.ok (fresh_block 1 8 1 (words 8 [8])) ∧
    ValidArray (fresh_block 1 8 1 (words 8 [8])) 8 1 8 1 ∧
    darray_push_impl debug_env (fresh_block 1 8 1 (words 8 [8])) (le_bytes 8 99)
      = Outcome.ok (fresh_block 1 16 2 (words 8 [99])) ∧
    darray_stride (fresh_block 1 16 2 (words 8 [99])) = Outcome.ok 99 ∧
    darray_count (fresh_block 1 16 2 (words 8 [99])) = Outcome.ok 2 ∧
    darray_bytes (fresh_block 1 16 2 (words 8 [99])) = Outcome.ok 16 ∧
    16 ≠ 2 * 99 := by
  refine ⟨?_, ⟨?_, ?_, ?_, ?_, ?_, ?_, ?_⟩, ?_, ?_, ?_, ?_, ?_⟩ <;> decide

/-- C9. The claim: a push onto a full array first grows it, to a capacity
strictly greater than before and at least the new `count`. The array
`darray_create_impl(8, 0)` returns is full with capacity 1. The growth step
asks for `(size_t)(1 * 1.5f)`, which is 1: after the push the capacity is still
1 and the new `count` is 2. -/
theorem push_at_capacity_one_does_not_grow :
    darray_create_impl debug_env 8 0 = Outcome.ok (fresh_block 1 8 1 (words 8 [8])) ∧
    ValidArray (fresh_block 1 8 1 (words 8 [8])) 8 1 8 1 ∧
    times_DGROWTH_FACTOR 1 = Outcome.ok 1 ∧
    darray_push_impl debug_env (fresh_block 1 8 1 (words 8 [8])) (le_bytes 8 8)
      = Outcome.ok (fresh_block 1 16 2 (words 8 [8])) ∧
    darray_capacity (fresh_block 1 16 2 (words 8 [8])) = Outcome.ok 1 ∧
    darray_count (fresh_block 1 16 2 (words 8 [8])) = Outcome.ok 2 := by
  refine ⟨?_, ⟨?_, ?_, ?_, ?_, ?_, ?_, ?_⟩, ?_, ?_, ?_, ?_⟩ <;> decide

/-- C10. The claim: a push followed by a pop leaves `count` and the bytes of all
prior elements unchanged. On the valid array `[8, 20, 30]` with capacity 4,
pushing 40 and popping restores `count` 3, but the push has copied 40 over
element 2, which held 30. -/
theorem push_pop_changes_last_element :
    ValidArray roundtrip_input 8 3 24 4 ∧
    slot roundtrip_input 8 2 = Outcome.ok (le_bytes 8 30) ∧
    darray_push_impl debug_env roundtrip_input (le_bytes 8 40)
      = Outcome.ok (block_of 4 32 4 (words 8 [8, 20, 40, 7])) ∧
    darray_pop debug_env (block_of 4 32 4 (words 8 [8, 20, 40, 7]))
      = Outcome.ok (block_of 4 24 3 (words 8 [8, 20, 40, 7])) ∧
    darray_count (block_of 4 24 3 (words 8 [8, 20, 40, 7])) = Outcome.ok 3 ∧
    slot (block_of 4 24 3 (words 8 [8, 20, 40, 7])) 8 2 = Outcome.ok (le_bytes 8 40) ∧
    le_bytes 8 40 ≠ le_bytes 8 30 := by
  refine ⟨⟨?_, ?_, ?_, ?_, ?_, ?_, ?_⟩, ?_, ?_, ?_, ?_, ?_, ?_⟩ <;> decide

/-- C11. The claim: `darray_insert_impl(array, idx, v)` followed by
`darray_remove(array, idx)` restores the original elements, `count` and `bytes`.
On the valid array `[8, 20, 30, 40]` with capacity 5 and `idx = 2` the default
build aborts in the insert, because the code asserts `index > count`. With
`NDEBUG` the insert returns `[8, 20, 99, 40, 7]` with `count` 5 (30 is
overwritten, nothing is shifted up), and the remove then returns
`[8, 20 + 99 * 2^56, 0, 40]` with `count` 4: `count` and `bytes` are restored,
the elements are not. -/
theorem insert_then_remove_does_not_restore :
    ValidArray inverse_input 8 4 32 5 ∧
    darray_insert_impl debug_env inverse_input 2 (le_bytes 8 99)
      = Outcome.fault (Fault.abort Assertion.index_out_of_bounds) ∧
    darray_insert_impl release_env inverse_input 2 (le_bytes 8 99)
      = Outcome.ok (block_of 5 40 5 (words 8 [8, 20, 99, 40, 7])) ∧
    darray_remove release_env (block_of 5 40 5 (words 8 [8, 20, 99, 40, 7])) 2
      = Outcome.ok (block_of 5 32 4 (words 8 [8, 20 + 99 * 2 ^ 56, 0, 40, 7])) ∧
    words 8 [8, 20 + 99 * 2 ^ 56, 0, 40] ≠ words 8 [8, 20, 30, 40] := by
  refine ⟨⟨?_, ?_, ?_, ?_, ?_, ?_, ?_⟩, ?_, ?_, ?_, ?_⟩ <;> decide

/-- C12. The claim: pushing the values of a list onto the array
`darray_create_impl(stride, 0)` returns gives `count` equal to the number of
values and the values, in order, in elements `0 ..`. The fresh array already has
`count` 1, so one push gives `count` 2. The second push finds the array full,
resizes it to `(size_t)(1 * 1.5f) = 1` slot and then copies to index 1, past the
end of the block: five pushes have no defined result. For four-byte elements
the construction itself overruns the block. -/
theorem push_sequence_from_fresh_array :
    darray_create_impl debug_env 8 0 = Outcome.ok (fresh_block 1 8 1 (words 8 [8])) ∧
    push_all debug_env (fresh_block 1 8 1 (words 8 [8])) [le_bytes 8 8]
      = Outcome.ok (fresh_block 1 16 2 (words 8 [8])) ∧
    darray_count (fresh_block 1 16 2 (words 8 [8])) = Outcome.ok 2 ∧
    2 ≠ [le_bytes 8 8].length ∧
    push_all debug_env (fresh_block 1 8 1 (words 8 [8]))
        [le_bytes 8 8, le_bytes 8 11, le_bytes 8 12, le_bytes 8 13, le_bytes 8 14]
      = Outcome.fault Fault.ub ∧
    darray_create_impl debug_env 4 0 = Outcome.fault Fault.ub := by
  refine ⟨?_, ?_, ?_, ?_, ?_, ?_⟩ <;> decide

/-- C13. The claim: no mutating operation changes what `darray_stride` returns,
in particular writing an element into slot 0 by push or insert does not. The
stride word is kept at `array - 0`, the start of slot 0. Pushing 5 onto the
array `darray_create_impl(8, 1)` returns changes the stride from 8 to 5. With
`NDEBUG`, inserting at index 0 of the valid array `[8, 256, 30]` moves the
stride word down by one byte, so `darray_stride` returns 0 afterwards. -/
theorem element_write_changes_stride :
    darray_create_impl debug_env 8 1 = Outcome.ok (fresh_block 1 8 1 (words 8 [8])) ∧
    darray_stride (fresh_block 1 8 1 (words 8 [8])) = Outcome.ok 8 ∧
    darray_push_impl debug_env (fresh_block 1 8 1 (words 8 [8])) (le_bytes 8 5)
      = Outcome.ok (fresh_block 1 16 2 (words 8 [5])) ∧
    darray_stride (fresh_block 1 16 2 (words 8 [5])) = Outcome.ok 5 ∧
    ValidArray overlap_input 8 3 24 5 ∧
    darray_insert_impl release_env overlap_input 0 (le_bytes 8 99)
      = Outcome.ok (block_of 5 32 4 (words 8 [0, 256, 30, 6, 7])) ∧
    darray_stride (block_of 5 32 4 (words 8 [0, 256, 30, 6, 7])) = Outcome.ok 0 := by
  refine ⟨?_, ?_, ?_, ?_, ⟨?_, ?_, ?_, ?_, ?_, ?_, ?_⟩, ?_, ?_⟩ <;> decide

/-- C14. The claim: the four header fields are accessed at distinct word
offsets 0..3 of the allocation, strictly before the payload at word 4, and fill
the header. The code accesses field `f` at `array - f`: capacity, bytes and
count are at words 1, 2 and 3, the stride is at word 4, which is the first
payload word, and word 0 is never accessed: after `darray_create_impl(8, 1)` it
still holds the bytes of the allocator and the payload holds the stride. -/
theorem stride_field_is_in_payload :
    field_word _DARRAY_TAG_STRIDE = 4 ∧ field_word _DARRAY_TAG_COUNT = 3 ∧
    field_word _DARRAY_TAG_BYTES = 2 ∧ field_word _DARRAY_TAG_CAPACITY = 1 ∧
    field_addr _DARRAY_TAG_STRIDE = PAYLOAD ∧
    darray_create_impl debug_env 8 1 = Outcome.ok (fresh_block 1 8 1 (words 8 [8])) ∧
    window (fresh_block 1 8 1 (words 8 [8])) 0 8 = List.replicate 8 170 ∧
    payload (fresh_block 1 8 1 (words 8 [8])) = le_bytes 8 8 := by
  refine ⟨?_, ?_, ?_, ?_, ?_, ?_, ?_, ?_⟩ <;> decide

/-- C15, as stated, fails: the claim says the new capacity is the old capacity
plus `extra`, hence never smaller than before. On the valid array `[8, 20]` with
`count` 2 and capacity 3, `darray_reserve(array, 0)` leaves capacity 2. -/
theorem reserve_can_shrink_capacity :
    ValidArray push_input 8 2 16 3 ∧
    darray_reserve debug_env push_input 0 = Outcome.ok (block_of 2 16 2 (words 8 [8, 20])) ∧
    darray_capacity (block_of 2 16 2 (words 8 [8, 20])) = Outcome.ok 2 ∧
    2 ≠ 3 + 0 ∧ 2 < 3 := by
  refine ⟨⟨?_, ?_, ?_, ?_, ?_, ?_, ?_⟩, ?_, ?_, ?_, ?_⟩ <;> decide

/-- C15, amended. For every valid array whose elements lie inside its block, and
every `extra`, when the size does not wrap and `realloc` serves the request
without moving the block: `darray_reserve(array, extra)` sets the capacity to
the old `count` plus `extra`, and leaves `count`, `bytes` and the stored
elements unchanged. -/
theorem darray_reserve_spec (env : Env) (m : Block) (s c b cap extra : Nat)
    (hv : ValidArray m s c b cap) (hback : 32 + c * s ≤ m.length)
    (hsz : (c + extra) * s + 32 < SIZE_MOD)
    (halloc : env.alloc_ok ((c + extra) * s + 32) = true)
    (hstay : env.moves m.length ((c + extra) * s + 32) = false) :
    ∃ m1, darray_reserve env m extra = Outcome.ok m1 ∧
      darray_capacity m1 = Outcome.ok (c + extra) ∧ darray_count m1 = Outcome.ok c ∧
      darray_bytes m1 = Outcome.ok b ∧ ∀ i, i < c → slot m1 s i = slot m s i := by
  have hks : c + extra ≤ (c + extra) * s := Nat.le_mul_of_pos_right _ hv.stride_pos
  have hmod : (c + extra) % SIZE_MOD = c + extra := Nat.mod_eq_of_lt (by omega)
  obtain ⟨m1, h1, _, h2, h3, h4, h5⟩ :=
    darray_resize_impl_grow env m s c b cap (c + extra) hv hback (by omega) hsz halloc hstay
  refine ⟨m1, ?_, h2, h3, h4, h5⟩
  unfold darray_reserve darray_resize
  rw [hv.count_eq, ok_bind, hmod, h1]

/-- C15, amended, at the array `[8, 20]` with capacity 3 and `extra = 3`, a
request that grows the block from 56 to 72 bytes and is served in place. -/
theorem darray_reserve_spec_witness :
    ValidArray push_input 8 2 16 3 ∧ 32 + 2 * 8 ≤ push_input.length ∧
    (2 + 3) * 8 + 32 < SIZE_MOD ∧ inplace_env.alloc_ok ((2 + 3) * 8 + 32) = true ∧
    inplace_env.moves push_input.length ((2 + 3) * 8 + 32) = false ∧
    ∃ m1, darray_reserve inplace_env push_input 3 = Outcome.ok m1 ∧
      darray_capacity m1 = Outcome.ok (2 + 3) ∧ darray_count m1 = Outcome.ok 2 ∧
      darray_bytes m1 = Outcome.ok 16 ∧ ∀ i, i < 2 → slot m1 8 i = slot push_input 8 i :=
  have hv : ValidArray push_input 8 2 16 3 :=
    ⟨by decide, by decide, by decide, by decide, by decide, by decide, by decide⟩
  ⟨hv, by decide, by decide, by decide, by decide,
    darray_reserve_spec inplace_env push_input 8 2 16 3 3 hv (by decide) (by decide)
      (by decide) (by decide)⟩

/-- C16. The claim: `darray_insert_impl(array, count, v)` and
`darray_push_impl(array, v)` produce the same `count`, `bytes` and elements,
the original elements followed by `v`. On the valid array `[8, 20]` with
capacity 4, the push returns `[8, 30]` followed by the stale 6, `count` 3. The
insert at index 2 aborts in the default build; with `NDEBUG` it returns
`[8, 20, 30]`, `count` 3. -/
theorem insert_at_count_differs_from_push :
    ValidArray append_input 8 2 16 4 ∧
    darray_push_impl debug_env append_input (le_bytes 8 30)
      = Outcome.ok (block_of 4 24 3 (words 8 [8, 30, 6, 7])) ∧
    darray_insert_impl debug_env append_input 2 (le_bytes 8 30)
      = Outcome.fault (Fault.abort Assertion.index_out_of_bounds) ∧
    darray_push_impl release_env append_input (le_bytes 8 30)
      = Outcome.ok (block_of 4 24 3 (words 8 [8, 30, 6, 7])) ∧
    darray_insert_impl release_env append_input 2 (le_bytes 8 30)
      = Outcome.ok (block_of 4 24 3 (words 8 [8, 20, 30, 7])) ∧
    words 8 [8, 30, 6] ≠ words 8 [8, 20, 30] := by
  refine ⟨⟨?_, ?_, ?_, ?_, ?_, ?_, ?_⟩, ?_, ?_, ?_, ?_, ?_⟩ <;> decide

/-- C18. The claim: with debug assertions enabled, `darray_insert_impl` ends in
the bounds assertion if and only if `index > count`. The code asserts
`index > count`, so it is the other way round: on the valid array `[8, 20, 30]`
the indices 0, 1 and 3 (`= count`) abort, and index 4 passes the check and the
insertion is performed, leaving slot 3 stale. -/
theorem insert_bounds_check_is_inverted :
    ValidArray bounds_input 8 3 24 6 ∧
    darray_insert_impl debug_env bounds_input 0 (le_bytes 8 99)
      = Outcome.fault (Fault.abort Assertion.index_out_of_bounds) ∧
    darray_insert_impl debug_env bounds_input 1 (le_bytes 8 99)
      = Outcome.fault (Fault.abort Assertion.index_out_of_bounds) ∧
    darray_insert_impl debug_env bounds_input 3 (le_bytes 8 99)
      = Outcome.fault (Fault.abort Assertion.index_out_of_bounds) ∧
    darray_insert_impl debug_env bounds_input 4 (le_bytes 8 99)
      = Outcome.ok (block_of 6 32 4 (words 8 [8, 20, 30, 5, 99, 7])) := by
  refine ⟨⟨?_, ?_, ?_, ?_, ?_, ?_, ?_⟩, ?_, ?_, ?_, ?_⟩ <;> decide

/-- C19. The claim: with debug assertions enabled, `darray_remove_impl` ends in
the bounds assertion if and only if `index >= count`. The code asserts
`index > count`: on the valid array `[8, 20, 30]` the occupied indices 0 and 2
abort, index 3 (`= count`) aborts, and index 4 passes the check and the
removal is performed. -/
theorem remove_bounds_check_is_inverted :
    ValidArray bounds_input 8 3 24 6 ∧
    darray_remove_impl debug_env bounds_input 0 1
      = Outcome.fault (Fault.abort Assertion.index_out_of_bounds) ∧
    darray_remove_impl debug_env bounds_input 2 1
      = Outcome.fault (Fault.abort Assertion.index_out_of_bounds) ∧
    darray_remove_impl debug_env bounds_input 3 1
      = Outcome.fault (Fault.abort Assertion.index_out_of_bounds) ∧
    darray_remove_impl debug_env bounds_input 4 1
      = Outcome.ok (block_of 6 16 2 (words 8 [8, 20, 30, 5 + 6 * 2 ^ 56, 0, 7])) := by
  refine ⟨⟨?_, ?_, ?_, ?_, ?_, ?_, ?_⟩, ?_, ?_, ?_, ?_⟩ <;> decide

/-- C20. The claim: the bytes `darray_push_impl` copies to lie inside the
payload, `offset + stride <= capacity * stride`, also for `count == 0`. The
array `darray_create_impl(24, 1)` followed by `darray_pop` leaves is valid with
`count` 0 and capacity 1. There `last_index * stride` is `2^64 - 24`, the copy
starts at the capacity word of the header, and after the push the capacity
reads 777, the first word of the value, while the payload is unchanged. -/
theorem push_on_empty_array_writes_header :
    (darray_create_impl debug_env 24 1 >>= darray_pop debug_env) = Outcome.ok emptied_input ∧
    ValidArray emptied_input 24 0 0 1 ∧
    push_offset 0 24 = 2 ^ 64 - 24 ∧
    ¬ (push_offset 0 24 + 24 ≤ 1 * 24) ∧
    ptr_add PAYLOAD (push_offset 0 24) = field_addr _DARRAY_TAG_CAPACITY ∧
    darray_push_impl debug_env emptied_input (words 8 [777, 5, 6])
      = Outcome.ok (fresh_block 777 24 1 (words 8 [24] ++ List.replicate 16 170)) ∧
    darray_capacity (fresh_block 777 24 1 (words 8 [24] ++ List.replicate 16 170))
      = Outcome.ok 777 ∧
    payload (fresh_block 777 24 1 (words 8 [24] ++ List.replicate 16 170))
      = payload emptied_input := by
  refine ⟨?_, ⟨?_, ?_, ?_, ?_, ?_, ?_, ?_⟩, ?_, ?_, ?_, ?_, ?_, ?_⟩ <;> decide

end Darray
